import Mathlib

set_option maxRecDepth 8192

/-!
Verification of the capability-to-entity mapping layer of the
electrolux_status Home Assistant integration
(custom_components/electrolux_status/api.py).

Python dictionaries with heterogeneous values are embedded as association
lists over an inductive value type PVal; Python truthiness, dict lookup
with defaults, in-place dict update and raised exceptions (modelled with
Except) follow the Python semantics of the source.  The entity-kind
constants and the static catalog live in const.py / model.py, which are
not part of the sources; the kinds are modelled from the spec as an
inductive type and the catalog is kept as an explicit parameter.
-/

/-- Embedded Python values, restricted to the shapes api.py manipulates:
None, booleans, numbers, strings and string-keyed dictionaries. -/
inductive PVal where
  | vNone
  | vBool (b : Bool)
  | vNum (n : Int)
  | vStr (s : String)
  | vDict (d : List (String × PVal))

/-- Python truthiness of an embedded value. -/
def pvTruthy : PVal → Bool
  | .vNone => false
  | .vBool b => b
  | .vNum n => n != 0
  | .vStr s => s != ""
  | .vDict d => !d.isEmpty

/-- Python d.get(k, None) on an association-list dictionary. -/
def dget {α : Type} (d : List (String × α)) (k : String) : Option α :=
  match d with
  | [] => none
  | (k₀, v₀) :: rest => if k₀ = k then some v₀ else dget rest k

/-- Python d[k] = v : replaces the value in place when the key exists,
appends the pair at the end otherwise (insertion order is kept). -/
def dinsert {α : Type} (d : List (String × α)) (k : String) (v : α) :
    List (String × α) :=
  match d with
  | [] => [(k, v)]
  | (k₀, v₀) :: rest =>
    if k₀ = k then (k₀, v) :: rest else (k₀, v₀) :: dinsert rest k v

/-- Python d.update(e) : every key of e overwrites d, other keys of d stay. -/
def dupdate {α : Type} (d e : List (String × α)) : List (String × α) :=
  match e with
  | [] => d
  | (k, v) :: rest => dupdate (dinsert d k v) rest

/-- Keys of a dictionary, in insertion order (Python list(d.keys())). -/
def dkeys {α : Type} (d : List (String × α)) : List String := d.map Prod.fst

/-- Python v == "lit" where v is an arbitrary value: equality holds only
for an equal string, any non-string compares unequal. -/
def pvEqStr : PVal → String → Bool
  | .vStr t, s => t == s
  | _, _ => false

/-- Python test `d.get(k) is not None` on an already looked-up option:
the key must be present and its value must not be None. -/
def pvIsNotNone : Option PVal → Bool
  | some .vNone => false
  | some _ => true
  | none => false

/-- Python test `d.get(k) is None`. -/
def pvIsNone (o : Option PVal) : Bool := !pvIsNotNone o

/-- Python isinstance(v, dict). -/
def pvIsDict : PVal → Bool
  | .vDict _ => true
  | _ => false

/-- Python len(v) for a dictionary value (0 for non-dicts; only applied
to values already checked to be dicts, mirroring the source). -/
def pvDictLen : PVal → Nat
  | .vDict d => d.length
  | _ => 0

/-- Modelled from the spec: the entity kinds produced by the mapping
(sensor, binary sensor, switch, number, select, button).  In the source
these are string constants imported from const.py, which is not among
the source files; only their distinctness matters to api.py. -/
inductive EntityType where
  | SENSOR
  | BINARY_SENSOR
  | BUTTON
  | SELECT
  | NUMBER
  | SWITCH
deriving DecidableEq

/-- ElectroluxLibraryEntity.get_entity_type (api.py lines 162-216):
maps a capability definition to an entity kind, following the source
line by line (truthiness guards, the boolean/readwrite/values switch
exception, the value-list select rule, then the type/access match). -/
def get_entity_type (capabilities : List (String × List (String × PVal)))
    (attr_name : String) : Option EntityType :=
  match dget capabilities attr_name with
  | none => none
  | some capability_def =>
    -- `if not capability_def: return None`
    if capability_def.isEmpty then none else
    -- Type : string, int, number, boolean (other values ignored)
    let type_object := (dget capability_def "type").getD .vNone
    if !pvTruthy type_object then none else
    -- Access : read, readwrite (other values ignored)
    let access := (dget capability_def "access").getD .vNone
    if !pvTruthy access then none else
    -- Exception (Electrolux bug)
    if pvEqStr type_object "boolean" && pvEqStr access "readwrite"
        && pvIsNotNone (dget capability_def "values") then
      some .SWITCH
    else
    -- List of values ? if values is defined and has at least 1 entry
    let values := (dget capability_def "values").getD .vNone
    if (pvTruthy values && pvEqStr access "readwrite" && pvIsDict values
          && pvDictLen values != 0)
        && (!pvEqStr type_object "number"
          || pvIsNone (dget capability_def "min")) then
      some .SELECT
    else
    if pvEqStr type_object "boolean" then
      if pvEqStr access "read" then some .BINARY_SENSOR
      else if pvEqStr access "readwrite" then some .SWITCH
      else none
    else if pvEqStr type_object "temperature" then
      if pvEqStr access "read" then some .SENSOR
      else if pvEqStr access "readwrite" then some .NUMBER
      else none
    else
      if pvEqStr access "read" && (pvEqStr type_object "number"
          || pvEqStr type_object "int" || pvEqStr type_object "boolean"
          || pvEqStr type_object "string") then some .SENSOR
      else if pvEqStr type_object "int" || pvEqStr type_object "number" then
        some .NUMBER
      else none

/-- Python list.startswith on character lists. -/
def charsStart : List Char → List Char → Bool
  | _, [] => true
  | [], _ :: _ => false
  | c :: s, p :: ps => c == p && charsStart s ps

/-- Python key.startswith(p). -/
def strStarts (s p : String) : Bool := charsStart s.toList p.toList

/-- ElectroluxLibraryEntity.sources_list (api.py lines 218-226): None when
the capabilities dictionary is None, otherwise the capability keys that do
not start with applianceCareAndMaintenance, in insertion order. -/
def sources_list (capabilities : Option (List (String × List (String × PVal)))) :
    Option (List String) :=
  match capabilities with
  | none => none
  | some caps =>
    some ((dkeys caps).filter
      (fun key => !strStarts key "applianceCareAndMaintenance"))

/-- A dictionary with a successful lookup is nonempty. -/
lemma dget_ne_nil {α : Type} {d : List (String × α)} {k : String} {v : α}
    (h : dget d k = some v) : d.isEmpty = false := by
  cases d with
  | nil => simp [dget] at h
  | cons p rest => simp [List.isEmpty]

/-- C1: a capability definition of type boolean with access readwrite whose
values field is present and not None is mapped to the switch kind by
get_entity_type; this vendor-schema exception fires before the select rule
for value lists, so the result is switch (not select) even when values is a
non-empty dictionary. -/
theorem C1_boolean_readwrite_values_switch
    (capabilities : List (String × List (String × PVal)))
    (attr_name : String) (capability_def : List (String × PVal)) (v : PVal)
    (hdef : dget capabilities attr_name = some capability_def)
    (htype : dget capability_def "type" = some (.vStr "boolean"))
    (haccess : dget capability_def "access" = some (.vStr "readwrite"))
    (hvalues : dget capability_def "values" = some v)
    (hv : v ≠ .vNone) :
    get_entity_type capabilities attr_name = some .SWITCH := by
  have hne := dget_ne_nil htype
  have hnn : pvIsNotNone (dget capability_def "values") = true := by
    rw [hvalues]; cases v <;> simp_all [pvIsNotNone]
  simp [get_entity_type, hdef, hne, htype, haccess, hnn, pvTruthy, pvEqStr]

/-- Concrete witness for C1. -/
def capsC1 : List (String × List (String × PVal)) :=
  [("binaryX", [("type", .vStr "boolean"), ("access", .vStr "readwrite"),
                ("values", .vDict [("ON", .vBool true), ("OFF", .vBool false)])])]

theorem C1_witness : get_entity_type capsC1 "binaryX" = some .SWITCH :=
  C1_boolean_readwrite_values_switch capsC1 "binaryX" _
    (.vDict [("ON", .vBool true), ("OFF", .vBool false)]) rfl rfl rfl rfl
    (by intro h; cases h)

/-- The capability definition used to refute C2: type int, access readwrite,
a non-empty, non-numeric values dictionary, and a min field present. -/
def capDefC2 : List (String × PVal) :=
  [("type", .vStr "int"), ("access", .vStr "readwrite"),
   ("values", .vDict [("opt", .vStr "A")]), ("min", .vNum 0)]

def capsC2 : List (String × List (String × PVal)) := [("a", capDefC2)]

/-- C2 counterexample: the claim says a capability with a min field present
does not map to select, but for type int (any non-number type) with access
readwrite and a non-empty values dictionary the code returns select even
though min is present: the min exclusion in the source only applies when
the type equals number. -/
theorem C2_counterexample :
    get_entity_type capsC2 "a" = some .SELECT ∧
    dget capDefC2 "min" = some (.vNum 0) ∧
    dget capDefC2 "values" = some (.vDict [("opt", .vStr "A")]) :=
  ⟨rfl, rfl, rfl⟩

/-- C2 amended: for a capability definition whose type is not boolean and
not empty, with access readwrite and a non-empty values dictionary,
get_entity_type returns select if and only if the type differs from number
or the min field is absent (or None); only a number-typed capability with a
min present falls through instead of mapping to select. -/
theorem C2_amended_select_rule
    (capabilities : List (String × List (String × PVal)))
    (attr_name ty : String) (capability_def : List (String × PVal))
    (d : List (String × PVal))
    (hdef : dget capabilities attr_name = some capability_def)
    (htype : dget capability_def "type" = some (.vStr ty))
    (hty0 : ty ≠ "") (htyb : ty ≠ "boolean")
    (haccess : dget capability_def "access" = some (.vStr "readwrite"))
    (hvalues : dget capability_def "values" = some (.vDict d))
    (hd : d ≠ []) :
    get_entity_type capabilities attr_name = some .SELECT ↔
      (ty ≠ "number" ∨ pvIsNone (dget capability_def "min") = true) := by
  have hne := dget_ne_nil htype
  by_cases hnum : ty = "number"
  · subst hnum
    by_cases hmin : pvIsNone (dget capability_def "min") = true
    · simp [get_entity_type, hdef, hne, htype, haccess, hvalues, hmin,
        pvTruthy, pvEqStr, pvIsDict, pvDictLen, hd]
    · simp [get_entity_type, hdef, hne, htype, haccess, hvalues, hmin,
        pvTruthy, pvEqStr, pvIsDict, pvDictLen, hd]
  · simp [get_entity_type, hdef, hne, htype, haccess, hvalues,
      pvTruthy, pvEqStr, pvIsDict, pvDictLen, hd, hty0, htyb, hnum]

theorem C2_witness : get_entity_type capsC2 "a" = some .SELECT :=
  (C2_amended_select_rule capsC2 "a" "int" capDefC2 [("opt", .vStr "A")]
    rfl rfl (by decide) (by decide) rfl rfl (by simp)).mpr
    (Or.inl (by decide))

/-- Values field absent, None, not a dictionary, or an empty dictionary:
the configurations in which the value-list select rule cannot fire. -/
def noValueList (capability_def : List (String × PVal)) : Prop :=
  ∀ dd, dget capability_def "values" = some (.vDict dd) → dd = []

/-- C3: the remaining rows of the decision table, read in order (an earlier
row takes precedence: boolean with access read is matched by the binary
sensor row before the generic sensor row): boolean/read maps to binary
sensor, boolean/readwrite to switch (with or without values, through the
exception or the match), temperature/read to sensor, temperature/readwrite
to number when the select rule did not match, number-int-string/read to
sensor, and int-number/readwrite without a value list to number. -/
theorem C3_decision_table :
    (∀ capabilities attr_name capability_def,
      dget capabilities attr_name = some capability_def →
      dget capability_def "type" = some (.vStr "boolean") →
      dget capability_def "access" = some (.vStr "read") →
      get_entity_type capabilities attr_name = some EntityType.BINARY_SENSOR)
  ∧ (∀ capabilities attr_name capability_def,
      dget capabilities attr_name = some capability_def →
      dget capability_def "type" = some (.vStr "boolean") →
      dget capability_def "access" = some (.vStr "readwrite") →
      get_entity_type capabilities attr_name = some EntityType.SWITCH)
  ∧ (∀ capabilities attr_name capability_def,
      dget capabilities attr_name = some capability_def →
      dget capability_def "type" = some (.vStr "temperature") →
      dget capability_def "access" = some (.vStr "read") →
      get_entity_type capabilities attr_name = some EntityType.SENSOR)
  ∧ (∀ capabilities attr_name capability_def,
      dget capabilities attr_name = some capability_def →
      dget capability_def "type" = some (.vStr "temperature") →
      dget capability_def "access" = some (.vStr "readwrite") →
      noValueList capability_def →
      get_entity_type capabilities attr_name = some EntityType.NUMBER)
  ∧ (∀ capabilities attr_name capability_def ty,
      dget capabilities attr_name = some capability_def →
      dget capability_def "type" = some (.vStr ty) →
      (ty = "number" ∨ ty = "int" ∨ ty = "string") →
      dget capability_def "access" = some (.vStr "read") →
      get_entity_type capabilities attr_name = some EntityType.SENSOR)
  ∧ (∀ capabilities attr_name capability_def ty,
      dget capabilities attr_name = some capability_def →
      dget capability_def "type" = some (.vStr ty) →
      (ty = "int" ∨ ty = "number") →
      dget capability_def "access" = some (.vStr "readwrite") →
      noValueList capability_def →
      get_entity_type capabilities attr_name = some EntityType.NUMBER) := by
  refine ⟨?_, ?_, ?_, ?_, ?_, ?_⟩
  · intro capabilities attr_name capability_def hdef htype haccess
    have hne := dget_ne_nil htype
    simp [get_entity_type, hdef, hne, htype, haccess, pvTruthy, pvEqStr]
  · intro capabilities attr_name capability_def hdef htype haccess
    have hne := dget_ne_nil htype
    cases hv : dget capability_def "values" with
    | none =>
      simp [get_entity_type, hdef, hne, htype, haccess, hv,
        pvTruthy, pvEqStr, pvIsNotNone, pvIsDict, pvDictLen]
    | some v =>
      have hnn : pvIsNotNone (dget capability_def "values") = true ∨
          dget capability_def "values" = some PVal.vNone := by
        rw [hv]; cases v <;> simp [pvIsNotNone]
      rcases hnn with hnn | hnn
      · simp [get_entity_type, hdef, hne, htype, haccess, hnn, pvTruthy, pvEqStr]
      · simp [get_entity_type, hdef, hne, htype, haccess, hnn,
          pvTruthy, pvEqStr, pvIsNotNone, pvIsDict, pvDictLen]
  · intro capabilities attr_name capability_def hdef htype haccess
    have hne := dget_ne_nil htype
    simp [get_entity_type, hdef, hne, htype, haccess, pvTruthy, pvEqStr,
      pvIsNotNone, pvIsDict, pvDictLen]
  · intro capabilities attr_name capability_def hdef htype haccess hnv
    have hne := dget_ne_nil htype
    cases hv : dget capability_def "values" with
    | none =>
      simp [get_entity_type, hdef, hne, htype, haccess, hv, pvTruthy,
        pvEqStr, pvIsNotNone, pvIsDict, pvDictLen]
    | some v =>
      cases v with
      | vDict dd =>
        have hdd : dd = [] := hnv dd hv
        subst hdd
        simp [get_entity_type, hdef, hne, htype, haccess, hv, pvTruthy,
          pvEqStr, pvIsNotNone, pvIsDict, pvDictLen]
      | vNone =>
        simp [get_entity_type, hdef, hne, htype, haccess, hv, pvTruthy,
          pvEqStr, pvIsNotNone, pvIsDict, pvDictLen]
      | vBool b =>
        simp [get_entity_type, hdef, hne, htype, haccess, hv, pvTruthy,
          pvEqStr, pvIsNotNone, pvIsDict, pvDictLen]
      | vNum n =>
        simp [get_entity_type, hdef, hne, htype, haccess, hv, pvTruthy,
          pvEqStr, pvIsNotNone, pvIsDict, pvDictLen]
      | vStr s =>
        simp [get_entity_type, hdef, hne, htype, haccess, hv, pvTruthy,
          pvEqStr, pvIsNotNone, pvIsDict, pvDictLen]
  · intro capabilities attr_name capability_def ty hdef htype hty haccess
    have hne := dget_ne_nil htype
    rcases hty with rfl | rfl | rfl <;>
      simp [get_entity_type, hdef, hne, htype, haccess, pvTruthy, pvEqStr]
  · intro capabilities attr_name capability_def ty hdef htype hty haccess hnv
    have hne := dget_ne_nil htype
    rcases hty with rfl | rfl <;>
    · cases hv : dget capability_def "values" with
      | none =>
        simp [get_entity_type, hdef, hne, htype, haccess, hv, pvTruthy,
          pvEqStr, pvIsNotNone, pvIsDict, pvDictLen]
      | some v =>
        cases v with
        | vDict dd =>
          have hdd : dd = [] := hnv dd hv
          subst hdd
          simp [get_entity_type, hdef, hne, htype, haccess, hv, pvTruthy,
            pvEqStr, pvIsNotNone, pvIsDict, pvDictLen]
        | vNone =>
          simp [get_entity_type, hdef, hne, htype, haccess, hv, pvTruthy,
            pvEqStr, pvIsNotNone, pvIsDict, pvDictLen]
        | vBool b =>
          simp [get_entity_type, hdef, hne, htype, haccess, hv, pvTruthy,
            pvEqStr, pvIsNotNone, pvIsDict, pvDictLen]
        | vNum n =>
          simp [get_entity_type, hdef, hne, htype, haccess, hv, pvTruthy,
            pvEqStr, pvIsNotNone, pvIsDict, pvDictLen]
        | vStr s =>
          simp [get_entity_type, hdef, hne, htype, haccess, hv, pvTruthy,
            pvEqStr, pvIsNotNone, pvIsDict, pvDictLen]

/-- Concrete witness capabilities for the C3 rows. -/
def capsC3 : List (String × List (String × PVal)) :=
  [("doorState", [("type", .vStr "boolean"), ("access", .vStr "read")]),
   ("autoDosing", [("type", .vStr "boolean"), ("access", .vStr "readwrite")]),
   ("ambientTemp", [("type", .vStr "temperature"), ("access", .vStr "read")]),
   ("targetTemp", [("type", .vStr "temperature"), ("access", .vStr "readwrite")]),
   ("cycleCount", [("type", .vStr "int"), ("access", .vStr "read")]),
   ("spinSpeed", [("type", .vStr "number"), ("access", .vStr "readwrite")])]

theorem C3_witness :
    get_entity_type capsC3 "doorState" = some .BINARY_SENSOR ∧
    get_entity_type capsC3 "autoDosing" = some .SWITCH ∧
    get_entity_type capsC3 "ambientTemp" = some .SENSOR ∧
    get_entity_type capsC3 "targetTemp" = some .NUMBER ∧
    get_entity_type capsC3 "cycleCount" = some .SENSOR ∧
    get_entity_type capsC3 "spinSpeed" = some .NUMBER :=
  ⟨C3_decision_table.1 capsC3 "doorState" _ rfl rfl rfl,
   C3_decision_table.2.1 capsC3 "autoDosing" _ rfl rfl rfl,
   C3_decision_table.2.2.1 capsC3 "ambientTemp" _ rfl rfl rfl,
   C3_decision_table.2.2.2.1 capsC3 "targetTemp" _ rfl rfl rfl
     (by intro dd h; simp [dget] at h),
   C3_decision_table.2.2.2.2.1 capsC3 "cycleCount" _ "int" rfl rfl
     (Or.inr (Or.inl rfl)) rfl,
   C3_decision_table.2.2.2.2.2 capsC3 "spinSpeed" _ "number" rfl rfl
     (Or.inr rfl) rfl (by intro dd h; simp [dget] at h)⟩

/-- C9: get_entity_type is total with None as the no-entity result: an
attribute absent from the capabilities dictionary, a definition lacking a
type field, a definition lacking an access field, and a combination outside
the decision table (type string with access readwrite and no values) all
yield None; the embedding returns an Option, never an error. -/
theorem C9_get_entity_type_total :
    (∀ capabilities attr_name,
      dget capabilities attr_name = none →
      get_entity_type capabilities attr_name = none)
  ∧ (∀ capabilities attr_name capability_def,
      dget capabilities attr_name = some capability_def →
      dget capability_def "type" = none →
      get_entity_type capabilities attr_name = none)
  ∧ (∀ capabilities attr_name capability_def,
      dget capabilities attr_name = some capability_def →
      dget capability_def "access" = none →
      get_entity_type capabilities attr_name = none)
  ∧ (∀ capabilities attr_name capability_def,
      dget capabilities attr_name = some capability_def →
      dget capability_def "type" = some (.vStr "string") →
      dget capability_def "access" = some (.vStr "readwrite") →
      dget capability_def "values" = none →
      get_entity_type capabilities attr_name = none) := by
  refine ⟨?_, ?_, ?_, ?_⟩
  · intro capabilities attr_name h
    simp [get_entity_type, h]
  · intro capabilities attr_name capability_def hdef htype
    simp [get_entity_type, hdef, htype, pvTruthy]
  · intro capabilities attr_name capability_def hdef haccess
    cases htype : dget capability_def "type" with
    | none => simp [get_entity_type, hdef, htype, pvTruthy]
    | some t =>
      have hne := dget_ne_nil htype
      cases ht : pvTruthy t with
      | false => simp [get_entity_type, hdef, hne, htype, ht]
      | true => simp [get_entity_type, hdef, hne, htype, ht, haccess, pvTruthy]
  · intro capabilities attr_name capability_def hdef htype haccess hvalues
    have hne := dget_ne_nil htype
    simp [get_entity_type, hdef, hne, htype, haccess, hvalues, pvTruthy,
      pvEqStr, pvIsNotNone, pvIsDict, pvDictLen]

/-- Concrete witness capabilities for C9. -/
def capsC9 : List (String × List (String × PVal)) :=
  [("noType", [("access", .vStr "read")]),
   ("noAccess", [("type", .vStr "boolean")]),
   ("strRW", [("type", .vStr "string"), ("access", .vStr "readwrite")])]

theorem C9_witness :
    get_entity_type capsC9 "missing" = none ∧
    get_entity_type capsC9 "noType" = none ∧
    get_entity_type capsC9 "noAccess" = none ∧
    get_entity_type capsC9 "strRW" = none :=
  ⟨C9_get_entity_type_total.1 capsC9 "missing" rfl,
   C9_get_entity_type_total.2.1 capsC9 "noType" _ rfl rfl,
   C9_get_entity_type_total.2.2.1 capsC9 "noAccess" _ rfl rfl,
   C9_get_entity_type_total.2.2.2 capsC9 "strRW" _ rfl rfl rfl rfl⟩

/-- C10: sources_list returns None when the capabilities dictionary is
None; otherwise it returns exactly the capability keys that do not start
with applianceCareAndMaintenance, as a subsequence of the key list (their
original order).  Since setup builds its regular entities by iterating
this list, no regular entity is created for an applianceCareAndMaintenance
capability on the server-capabilities path. -/
theorem C10_sources_list :
    sources_list none = none
  ∧ (∀ caps k, k ∈ (sources_list (some caps)).getD [] ↔
      (k ∈ dkeys caps ∧ strStarts k "applianceCareAndMaintenance" = false))
  ∧ (∀ caps, ((sources_list (some caps)).getD []).Sublist (dkeys caps)) := by
  refine ⟨rfl, ?_, ?_⟩
  · intro caps k
    simp [sources_list, List.mem_filter]
  · intro caps
    simp only [sources_list, Option.getD_some]
    exact List.filter_sublist _

def capsC10 : List (String × List (String × PVal)) :=
  [("applianceCareAndMaintenance/filterStatus", []), ("applianceState", [])]

theorem C10_witness :
    ("applianceState" ∈ (sources_list (some capsC10)).getD [] ↔
      ("applianceState" ∈ dkeys capsC10 ∧
        strStarts "applianceState" "applianceCareAndMaintenance" = false)) ∧
    ("applianceCareAndMaintenance/filterStatus" ∉
      (sources_list (some capsC10)).getD []) :=
  ⟨C10_sources_list.2.1 capsC10 "applianceState",
   fun h => by
    have h2 := (C10_sources_list.2.1 capsC10
      "applianceCareAndMaintenance/filterStatus").mp h
    exact absurd h2.2 (by decide)⟩

/-- char.isupper() or char.isdigit(), the class the loop in
get_sensor_name groups on (ASCII, as in the identifiers it is fed). -/
def isUD (c : Char) : Bool := c.isUpper || c.isDigit

/-- An upper-case letter or digit is not a lower-case letter. -/
lemma isUD_not_lower (c : Char) (h : isUD c = true) : c.isLower = false := by
  simp [isUD, Char.isUpper, Char.isDigit] at h
  simp only [Char.isLower]
  apply Bool.and_eq_false_iff.mpr
  left
  simp only [decide_eq_false_iff_not]
  intro hge
  have hgn : ((97 : UInt32)).toBitVec.toNat ≤ c.val.toBitVec.toNat :=
    BitVec.le_def.mp ((UInt32.le_def).mp hge)
  have e97 : ((97 : UInt32)).toBitVec.toNat = 97 := rfl
  rcases h with ⟨h1, h2⟩ | ⟨h1, h2⟩
  · have h2n : c.val.toBitVec.toNat ≤ (90 : UInt32).toBitVec.toNat :=
      BitVec.le_def.mp ((UInt32.le_def).mp h2)
    have e90 : ((90 : UInt32)).toBitVec.toNat = 90 := rfl
    omega
  · have h2n : c.val.toBitVec.toNat ≤ (57 : UInt32).toBitVec.toNat :=
      BitVec.le_def.mp ((UInt32.le_def).mp h2)
    have e57 : ((57 : UInt32)).toBitVec.toNat = 57 := rfl
    omega

/-- The group finalisation of get_sensor_name (api.py lines 97-100 and
104-108): a group matching the regex of upper-case letters and digits is
appended verbatim, any other group is lower-cased. -/
def normGroup (g : List Char) : List Char :=
  if g.all isUD then g else g.map Char.toLower

/-- The lookahead of the first branch: i == len(s)-1 or s[i+1] is an
upper-case letter or digit. -/
def headUD : List Char → Bool
  | [] => true
  | d :: _ => isUD d

/-- The character loop of get_sensor_name (api.py lines 78-103), as a
recursion over the remaining characters; prev is s[i-1].  The branches
follow the source: an empty group takes the next character unconditionally;
a space flushes the group verbatim; an upper-or-digit character between
upper-or-digit neighbours extends the group; an upper-or-digit character
after a lower-case letter flushes the normalised group and starts a new
one; anything else extends the group. -/
def sensorLoop : List Char → Char → List Char → List (List Char) →
    List (List Char) × List Char
  | [], _, group, words => (words, group)
  | c :: rest, prev, group, words =>
    if group = [] then sensorLoop rest c [c] words
    else if c = ' ' then sensorLoop rest c [] (words ++ [group])
    else if isUD c && isUD prev && headUD rest then
      sensorLoop rest c (group ++ [c]) words
    else if isUD c && prev.isLower then
      sensorLoop rest c [c] (words ++ [normGroup group])
    else sensorLoop rest c (group ++ [c]) words

/-- Python attr_name.rpartition("/")[-1]: the suffix after the last
slash (the whole string when there is no slash, empty when it ends in
one). -/
def afterLastSlash (s : List Char) : List Char :=
  (s.reverse.takeWhile (fun c => c != '/')).reverse

/-- Python " ".join(words). -/
def joinWords (ws : List (List Char)) : String :=
  String.intercalate " " (ws.map (fun w => String.mk w))

/-- ElectroluxLibraryEntity.get_sensor_name (api.py lines 70-109): keep
the part after the last slash (falling back to the whole name when that
part is empty), upper-case the first character, replace underscores by
spaces, run the grouping loop, flush the last group normalised, and join
the words with single spaces.  none models the IndexError the source
raises on an empty attribute name. -/
def get_sensor_name (attr_name : String) : Option String :=
  let seg := afterLastSlash attr_name.toList
  let a1 := if seg = [] then attr_name.toList else seg
  match a1 with
  | [] => none
  | c :: rest =>
    let a2 := (c.toUpper :: rest).map (fun ch => if ch = '_' then ' ' else ch)
    let wg := sensorLoop a2 ' ' [] []
    some (joinWords (if wg.2 = [] then wg.1 else wg.1 ++ [normGroup wg.2]))

/-- Whether the last character of a group is a lower-case letter. -/
def lastIsLower (g : List Char) : Bool :=
  match g.getLast? with
  | some c => c.isLower
  | none => false

/-- Reference tokenizer for the amended C4 description: a new group starts
after every space and where a lower-case letter is followed by an
upper-case letter or digit; each produced group is tagged with whether a
space terminated it. -/
def specSplitAux : List Char → List Char → List (List Char × Bool)
  | cur, [] => if cur = [] then [] else [(cur, false)]
  | cur, c :: rest =>
    if cur = [] then specSplitAux [c] rest
    else if c = ' ' then (cur, true) :: specSplitAux [] rest
    else if isUD c && lastIsLower cur then (cur, false) :: specSplitAux [c] rest
    else specSplitAux (cur ++ [c]) rest

/-- Rendering of one tagged group: space-terminated groups verbatim, the
others lower-cased unless they are all upper-case letters and digits. -/
def specRender (t : List Char × Bool) : List Char :=
  if t.2 then t.1 else normGroup t.1

/-- The amended C4 description as a compositional pipeline: strip to the
segment after the last slash, capitalise, map underscores to spaces,
tokenize, render each group, join with spaces. -/
def specSensorName (attr_name : String) : Option String :=
  let seg := afterLastSlash attr_name.toList
  let a1 := if seg = [] then attr_name.toList else seg
  match a1 with
  | [] => none
  | c :: rest =>
    let a2 := (c.toUpper :: rest).map (fun ch => if ch = '_' then ' ' else ch)
    some (joinWords ((specSplitAux [] a2).map specRender))

/-- If a character is a lower-case letter it is not upper-case or digit. -/
lemma isLower_not_UD (c : Char) (h : c.isLower = true) : isUD c = false := by
  cases hu : isUD c with
  | false => rfl
  | true => rw [isUD_not_lower c hu] at h; cases h

/-- The loop of get_sensor_name computes the same word list as the
reference tokenizer followed by rendering, provided prev is the last
character of the current group (the loop invariant of the source, where
prev is s[i-1] and the group is a suffix of the scanned input). -/
lemma sensorLoop_eq_spec (rest : List Char) :
    ∀ (group : List Char) (prev : Char) (words : List (List Char)),
    (group ≠ [] → group.getLast? = some prev) →
    (if (sensorLoop rest prev group words).2 = []
      then (sensorLoop rest prev group words).1
      else (sensorLoop rest prev group words).1
        ++ [normGroup (sensorLoop rest prev group words).2])
      = words ++ (specSplitAux group rest).map specRender := by
  induction rest with
  | nil =>
    intro group prev words hinv
    by_cases hg : group = []
    · subst hg; simp [sensorLoop, specSplitAux]
    · simp [sensorLoop, specSplitAux, hg, specRender]
  | cons c rest ih =>
    intro group prev words hinv
    by_cases hg : group = []
    · subst hg
      simp only [sensorLoop, specSplitAux, if_pos rfl]
      exact ih [c] c words (fun _ => by simp)
    · by_cases hsp : c = ' '
      · subst hsp
        simp only [sensorLoop, specSplitAux, if_neg hg, eq_self_iff_true,
          if_true]
        rw [ih [] ' ' (words ++ [group]) (fun h => absurd rfl h)]
        simp [specRender, List.append_assoc]
      · have hlast := hinv hg
        cases hud : isUD c with
        | false =>
          have hcond : (isUD c && lastIsLower group) = false := by simp [hud]
          have h1 : (isUD c && isUD prev && headUD rest) = false := by simp [hud]
          have h2 : (isUD c && prev.isLower) = false := by simp [hud]
          simp only [sensorLoop, specSplitAux, if_neg hg, if_neg hsp, h1, h2,
            hcond, Bool.false_eq_true, if_false]
          exact ih (group ++ [c]) c words (fun _ => by simp)
        | true =>
          cases hpl : prev.isLower with
          | true =>
            have hup : isUD prev = false := isLower_not_UD prev hpl
            have h1 : (isUD c && isUD prev && headUD rest) = false := by
              simp [hup]
            have h2 : (isUD c && prev.isLower) = true := by simp [hud, hpl]
            have hcond : (isUD c && lastIsLower group) = true := by
              simp [hud, lastIsLower, hlast, hpl]
            simp only [sensorLoop, specSplitAux, if_neg hg, if_neg hsp, h1, h2,
              hcond, Bool.false_eq_true, if_false, if_true]
            rw [ih [c] c (words ++ [normGroup group]) (fun _ => by simp)]
            simp [specRender, List.append_assoc]
          | false =>
            have h2 : (isUD c && prev.isLower) = false := by simp [hpl]
            have hcond : (isUD c && lastIsLower group) = false := by
              simp [lastIsLower, hlast, hpl]
            cases h1 : (isUD c && isUD prev && headUD rest) with
            | true =>
              simp only [sensorLoop, specSplitAux, if_neg hg, if_neg hsp, h1,
                hcond, Bool.false_eq_true, if_false, if_true]
              exact ih (group ++ [c]) c words (fun _ => by simp)
            | false =>
              simp only [sensorLoop, specSplitAux, if_neg hg, if_neg hsp, h1,
                h2, hcond, Bool.false_eq_true, if_false]
              exact ih (group ++ [c]) c words (fun _ => by simp)

/-- C4 amended: get_sensor_name agrees everywhere with the reference
pipeline specSensorName: keep the segment after the last slash (the whole
name when that segment is empty), upper-case the first character, turn
underscores into spaces, split into groups after each space and where a
lower-case letter is followed by an upper-case letter or digit, keep
space-terminated groups verbatim, lower-case every other group unless it
consists only of upper-case letters and digits, and join with single
spaces. -/
theorem C4_amended_sensor_name (attr_name : String) :
    get_sensor_name attr_name = specSensorName attr_name := by
  unfold get_sensor_name specSensorName
  simp only [String.toList]
  cases hseg : (if afterLastSlash attr_name.data = []
      then attr_name.data else afterLastSlash attr_name.data) with
  | nil => simp [hseg]
  | cons c rest =>
    simp only [hseg]
    rw [sensorLoop_eq_spec _ [] ' ' [] (fun h => absurd rfl h)]
    simp

/-- C4 counterexample input facts: a space-delimited word splitter used to
exhibit the groups of the produced label. -/
def splitOnSpace : List Char → List (List Char)
  | [] => [[]]
  | c :: rest =>
    match splitOnSpace rest, c with
    | r, ' ' => [] :: r
    | [], c₀ => [[c₀]]
    | w :: ws, c₀ => (c₀ :: w) :: ws

/-- A word containing both an upper-case and a lower-case letter: such a
word is neither lower-cased nor all upper-case letters and digits. -/
def mixedCaseWord (w : List Char) : Bool :=
  w.any Char.isUpper && w.any Char.isLower

/-- C4 counterexample: on the attribute Spin_Speed the produced label is
"Spin speed", whose first group Spin is mixed-case: the group flushed by
the space (from the underscore) is kept verbatim instead of being
lower-cased, contradicting "lower-casing every mixed-case group". -/
theorem C4_counterexample :
    get_sensor_name "Spin_Speed" = some "Spin speed" ∧
    splitOnSpace ("Spin speed".toList) =
      [['S','p','i','n'], ['s','p','e','e','d']] ∧
    mixedCaseWord ['S','p','i','n'] = true := by
  refine ⟨by decide, by decide, by decide⟩

/-- Modelled from the spec: one item of the static capability catalog
(the catalog lives in const.py / model.py, which are not among the source
files); only the two fields api.py reads are kept, an optional category
and the capability metadata assigned to reconstructed paths. -/
structure ElectroluxDevice where
  category : Option String
  capability_info : List (String × PVal)

/-- Truthiness of the optional category string (None and the empty string
are falsy). -/
def catTruthy : Option String → Bool
  | none => false
  | some c => c != ""

/-- Python reported.get(category).get(key) once the category value was
found truthy: an AttributeError (modelled as an error) when that value is
not a dictionary, otherwise truthiness of the key lookup. -/
def getKeyTruthy (v : PVal) (key : String) : Except Unit Bool :=
  match v with
  | .vDict d => .ok (pvTruthy ((dget d key).getD .vNone))
  | _ => .error ()

/-- The shared presence test of Appliance.setup (api.py lines 409-416) and
Appliance.update_missing_entities (api.py lines 268-272): the key has a
truthy value under its truthy category, or at top level when the category
is falsy. -/
def condCore (reported : List (String × PVal)) (category : Option String)
    (key : String) : Except Unit Bool :=
  match category with
  | some c =>
    if c = "" then .ok (pvTruthy ((dget reported key).getD .vNone))
    else
      match dget reported c with
      | none => .ok false
      | some v => if pvTruthy v then getKeyTruthy v key else .ok false
  | none => .ok (pvTruthy ((dget reported key).getD .vNone))

/-- The full condition of the rebuild loop in Appliance.setup (api.py
lines 409-417): the shared presence test, or the key being
executeCommand, which is always taken. -/
def setupCond (reported : List (String × PVal)) (category : Option String)
    (key : String) : Except Unit Bool :=
  match condCore reported category key with
  | .error e => .error e
  | .ok true => .ok true
  | .ok false => .ok (key == "executeCommand")

/-- Python path = f-string category/key if category (truthy) else key
(api.py line 418). -/
def mkPath (category : Option String) (key : String) : String :=
  match category with
  | some c => if c = "" then key else c ++ "/" ++ key
  | none => key

/-- The rebuild loop of Appliance.setup (api.py lines 407-420), threading
the built capabilities dictionary and name list through the catalog. -/
def rebuildFold (reported : List (String × PVal)) :
    List (String × ElectroluxDevice) →
    List (String × List (String × PVal)) × List String →
    Except Unit (List (String × List (String × PVal)) × List String)
  | [], acc => .ok acc
  | (key, item) :: rest, acc =>
    match setupCond reported item.category key with
    | .error e => .error e
    | .ok true =>
      rebuildFold reported rest
        (dinsert acc.1 (mkPath item.category key) item.capability_info,
         acc.2 ++ [mkPath item.category key])
    | .ok false => rebuildFold reported rest acc

/-- The fallback of Appliance.setup (api.py lines 401-425): when the
server returned no capabilities, rebuild the capability dictionary and
name list from the catalog against the last reported state. -/
def rebuild_capabilities (catalog : List (String × ElectroluxDevice))
    (reported : List (String × PVal)) :
    Except Unit (List (String × List (String × PVal)) × List String) :=
  rebuildFold reported catalog ([], [])

/-- The amended C5 selection condition, written as a pure predicate:
truthy presence under the category (which must hold a dictionary) or at
top level, or the key being executeCommand. -/
def specCondPure (reported : List (String × PVal)) (category : Option String)
    (key : String) : Bool :=
  (match category with
   | some c =>
     if c = "" then pvTruthy ((dget reported key).getD .vNone)
     else
       match dget reported c with
       | some (.vDict d) =>
         pvTruthy (PVal.vDict d) && pvTruthy ((dget d key).getD .vNone)
       | _ => false
   | none => pvTruthy ((dget reported key).getD .vNone))
  || (key == "executeCommand")

/-- The paths the amended C5 claim selects, in catalog order. -/
def specRebuildNames (catalog : List (String × ElectroluxDevice))
    (reported : List (String × PVal)) : List String :=
  catalog.filterMap (fun kv =>
    if specCondPure reported kv.2.category kv.1 then
      some (mkPath kv.2.category kv.1) else none)

/-- The capability dictionary the amended C5 claim builds: each selected
path assigned the capability_info of its catalog item. -/
def specRebuildCaps (catalog : List (String × ElectroluxDevice))
    (reported : List (String × PVal)) : List (String × List (String × PVal)) :=
  (catalog.filterMap (fun kv =>
    if specCondPure reported kv.2.category kv.1 then
      some (mkPath kv.2.category kv.1, kv.2.capability_info) else none)).foldl
    (fun acc p => dinsert acc p.1 p.2) []

/-- Under the well-formedness hypothesis that a truthy category value is a
dictionary, the setup condition never raises and agrees with the pure
predicate. -/
lemma setupCond_eq_pure (reported : List (String × PVal))
    (category : Option String) (key : String)
    (Hc : ∀ c v, category = some c → dget reported c = some v →
      pvTruthy v = true → pvIsDict v = true) :
    setupCond reported category key =
      .ok (specCondPure reported category key) := by
  cases category with
  | none =>
    simp only [setupCond, condCore, specCondPure]
    cases pvTruthy ((dget reported key).getD .vNone) <;> simp
  | some c =>
    by_cases hc : c = ""
    · subst hc
      simp only [setupCond, condCore, specCondPure, if_pos rfl]
      cases pvTruthy ((dget reported key).getD .vNone) <;> simp
    · simp only [setupCond, condCore, specCondPure, if_neg hc]
      cases hv : dget reported c with
      | none => simp
      | some v =>
        cases ht : pvTruthy v with
        | false =>
          cases v <;> simp_all [pvTruthy]
        | true =>
          have hd := Hc c v rfl hv ht
          cases v with
          | vDict d =>
            simp only [getKeyTruthy, ht, if_true]
            cases hk : pvTruthy ((dget d key).getD .vNone) <;> simp [ht, hk]
          | vNone => simp [pvIsDict] at hd
          | vBool b => simp [pvIsDict] at hd
          | vNum n => simp [pvIsDict] at hd
          | vStr s => simp [pvIsDict] at hd

lemma rebuildFold_eq_pure (reported : List (String × PVal)) :
    ∀ (catalog : List (String × ElectroluxDevice))
      (caps : List (String × List (String × PVal))) (names : List String),
    (∀ key item, (key, item) ∈ catalog → ∀ c v, item.category = some c →
      dget reported c = some v → pvTruthy v = true → pvIsDict v = true) →
    rebuildFold reported catalog (caps, names) =
      .ok ((catalog.filterMap (fun kv =>
              if specCondPure reported kv.2.category kv.1 then
                some (mkPath kv.2.category kv.1, kv.2.capability_info)
              else none)).foldl (fun acc p => dinsert acc p.1 p.2) caps,
            names ++ specRebuildNames catalog reported) := by
  intro catalog
  induction catalog with
  | nil => intro caps names H; simp [rebuildFold, specRebuildNames]
  | cons kv rest ih =>
    intro caps names H
    obtain ⟨key, item⟩ := kv
    have Hc : ∀ c v, item.category = some c → dget reported c = some v →
        pvTruthy v = true → pvIsDict v = true :=
      fun c v => H key item (List.mem_cons_self _ _) c v
    have Hrest : ∀ key item, (key, item) ∈ rest → ∀ c v,
        item.category = some c → dget reported c = some v →
        pvTruthy v = true → pvIsDict v = true :=
      fun k i hm => H k i (List.mem_cons_of_mem _ hm)
    simp only [rebuildFold, setupCond_eq_pure reported item.category key Hc]
    cases hcond : specCondPure reported item.category key with
    | true =>
      have hrec := ih (dinsert caps (mkPath item.category key) item.capability_info)
        (names ++ [mkPath item.category key]) Hrest
      simpa [specRebuildNames, List.filterMap_cons, hcond, List.append_assoc]
        using hrec
    | false =>
      have hrec := ih caps names Hrest
      simpa [specRebuildNames, List.filterMap_cons, hcond] using hrec

/-- C5 amended: when the server reports no capability metadata and a last
state is available, setup reconstructs the capability dictionary by taking
exactly those static-catalog entries whose key has a truthy value in the
last reported state (under its non-empty category, whose value must be a
dictionary there, or at top level otherwise), together with every entry
whose key is executeCommand regardless of the reported state, assigning
each selected path the capability_info of the catalog item. -/
theorem C5_amended_rebuild (catalog : List (String × ElectroluxDevice))
    (reported : List (String × PVal))
    (H : ∀ key item, (key, item) ∈ catalog → ∀ c v, item.category = some c →
      dget reported c = some v → pvTruthy v = true → pvIsDict v = true) :
    rebuild_capabilities catalog reported =
      .ok (specRebuildCaps catalog reported, specRebuildNames catalog reported) := by
  unfold rebuild_capabilities specRebuildCaps
  rw [rebuildFold_eq_pure reported catalog [] [] H]
  simp

/-- The capability metadata of the executeCommand catalog entry used in
the C5 counterexample and witness. -/
def execInfoC5 : List (String × PVal) :=
  [("access", .vStr "write"), ("type", .vStr "string"),
   ("values", .vDict [("OFF", .vDict []), ("ON", .vDict [])])]

def catalogC5 : List (String × ElectroluxDevice) :=
  [("executeCommand", ⟨none, execInfoC5⟩)]

def reportedC5 : List (String × PVal) := [("applianceState", .vStr "RUNNING")]

/-- C5 counterexample: with a catalog holding only the executeCommand
entry and a reported state not containing that key, the rebuilt
capabilities still contain the executeCommand path, refuting the claim
that exactly the catalog entries present in the last reported state are
taken (api.py line 416: or key == executeCommand). -/
theorem C5_counterexample :
    rebuild_capabilities catalogC5 reportedC5 =
      .ok ([("executeCommand", execInfoC5)], ["executeCommand"]) ∧
    dget reportedC5 "executeCommand" = none :=
  ⟨rfl, rfl⟩

def catalogC5w : List (String × ElectroluxDevice) :=
  [("applianceState", ⟨none, [("access", .vStr "read"), ("type", .vStr "string")]⟩),
   ("missingKey", ⟨none, [("access", .vStr "read"), ("type", .vStr "int")]⟩),
   ("executeCommand", ⟨none, execInfoC5⟩)]

theorem C5_witness :
    rebuild_capabilities catalogC5w reportedC5 =
      .ok (specRebuildCaps catalogC5w reportedC5,
           ["applianceState", "executeCommand"]) := by
  rw [C5_amended_rebuild catalogC5w reportedC5 ?h]
  case h =>
    intro key item hmem c v hcat
    simp only [catalogC5w, List.mem_cons, List.not_mem_nil, or_false] at hmem
    rcases hmem with h | h | h <;>
    · cases h
      exact Option.noConfusion hcat
  rfl

/-- ElectroluxLibraryEntity.get_entity_name (api.py lines 129-134):
the part after the last slash, the whole name when that part is empty. -/
def get_entity_name (attr_name : String) : String :=
  let seg := afterLastSlash attr_name.toList
  if seg = [] then attr_name else String.mk seg

/-- ElectroluxLibraryEntity.get_category (api.py lines 121-127):
attr_name.rpartition("/")[0], the part before the last slash, or the empty
string when there is none. -/
def get_category (attr_name : String) : String :=
  let l := attr_name.toList
  let seg := afterLastSlash l
  if seg.length = l.length then ""
  else String.mk (l.take (l.length - seg.length - 1))

/-- The fields of an ElectroluxEntity (entity.py) the claims refer to: the
attribute, its source category, the entity kind that chose the concrete
class, and the appliance status stored by ElectroluxEntity.update
(entity.py lines 140-141), absent until the first update. -/
structure EntityRec where
  entity_attr : String
  entity_source : String
  entity_type : EntityType
  appliance_status : Option (List (String × PVal))

/-- Python entity.entity_source == category where entity_source is a
string and category an optional string: a None category compares unequal
to every string. -/
def entSourceEq (es : String) (category : Option String) : Bool :=
  match category with
  | some c => es == c
  | none => false

/-- Appliance.get_entity (api.py lines 295-391), reduced to the fields of
EntityRec: the direct indexing self.data.capabilities[capability] raises
KeyError (modelled as an error) when the path is absent; a supported
entity kind builds the concrete entity, anything else returns None.  The
catalog metadata lookup that only fills device class, unit and icon is
omitted. -/
def get_entity (caps : List (String × List (String × PVal)))
    (capability : String) : Except Unit (Option EntityRec) :=
  let entity_type := get_entity_type caps capability
  let entity_name := get_entity_name capability
  let category := get_category capability
  match dget caps capability with
  | none => .error ()
  | some _capability_info =>
    match entity_type with
    | some .SENSOR => .ok (some ⟨entity_name, category, .SENSOR, none⟩)
    | some .BINARY_SENSOR => .ok (some ⟨entity_name, category, .BINARY_SENSOR, none⟩)
    | some .SELECT => .ok (some ⟨entity_name, category, .SELECT, none⟩)
    | some .NUMBER => .ok (some ⟨entity_name, category, .NUMBER, none⟩)
    | some .SWITCH => .ok (some ⟨entity_name, category, .SWITCH, none⟩)
    | _ => .ok none

/-- Python capability = key if category is None else category + "/" + key
(api.py lines 280-282): unlike the setup path, an empty-string category is
glued with a slash here. -/
def mkPathUME (category : Option String) (key : String) : String :=
  match category with
  | none => key
  | some c => c ++ "/" ++ key

/-- The mutable state of Appliance.update_missing_entities: the local
variable capability (initialised to the empty string before the loops),
self.data.capabilities and self.entities. -/
structure UMEState where
  capability : String
  caps : List (String × List (String × PVal))
  entities : List EntityRec

/-- One catalog item of the loop body of Appliance.update_missing_entities
(api.py lines 265-293): when the key is present, an entity with the same
attribute and category marks it found and records its path and metadata;
otherwise a new entity is built from the current (stale) capability
variable and appended when one is produced.  An error carries the state at
the raise, keeping the partial effects. -/
def umeItem (rd : List (String × PVal)) (key : String)
    (item : ElectroluxDevice) (st : UMEState) : Except UMEState UMEState :=
  match condCore rd item.category key with
  | .error _ => .error st
  | .ok false => .ok st
  | .ok true =>
    match st.entities.find? (fun e =>
        e.entity_attr == key && entSourceEq e.entity_source item.category) with
    | some _ =>
      .ok ⟨mkPathUME item.category key,
        dinsert st.caps (mkPathUME item.category key) item.capability_info,
        st.entities⟩
    | none =>
      match get_entity st.caps st.capability with
      | .error _ => .error st
      | .ok (some e) => .ok ⟨st.capability, st.caps, st.entities ++ [e]⟩
      | .ok none => .ok st

def umeItems (rd : List (String × PVal)) (key : String) :
    List ElectroluxDevice → UMEState → Except UMEState UMEState
  | [], st => .ok st
  | item :: rest, st =>
    match umeItem rd key item st with
    | .ok st₁ => umeItems rd key rest st₁
    | .error p => .error p

def umeFold (rd : List (String × PVal)) :
    List (String × List ElectroluxDevice) → UMEState →
    Except UMEState UMEState
  | [], st => .ok st
  | (key, items) :: rest, st =>
    match umeItems rd key items st with
    | .ok st₁ => umeFold rd rest st₁
    | .error p => .error p

/-- Appliance.update_missing_entities (api.py lines 256-293): nothing
happens unless the appliance runs on its own rebuilt capabilities; the
reported state is fetched behind truthiness guards, then the catalog loop
runs.  Iterating the items of a catalog entry follows this function, whose
values are lists of items (api.py line 265), unlike the setup fallback
which reads a single item per key.  A truthy non-dictionary properties or
reported value raises at its first attribute access (modelled as an
immediate error). -/
def update_missing_entities (own_capabilties : Bool)
    (catalog : List (String × List ElectroluxDevice))
    (state : List (String × PVal))
    (caps : List (String × List (String × PVal)))
    (entities : List EntityRec) : Except UMEState UMEState :=
  if !own_capabilties then .ok ⟨"", caps, entities⟩
  else
    match dget state "properties" with
    | some (.vDict pd) =>
      if (PVal.vDict pd |> pvTruthy) = false then .ok ⟨"", caps, entities⟩
      else
        match dget pd "reported" with
        | some (.vDict rd) =>
          if (PVal.vDict rd |> pvTruthy) = false then .ok ⟨"", caps, entities⟩
          else umeFold rd catalog ⟨"", caps, entities⟩
        | some v =>
          if pvTruthy v then .error ⟨"", caps, entities⟩
          else .ok ⟨"", caps, entities⟩
        | none => .ok ⟨"", caps, entities⟩
    | some v =>
      if pvTruthy v then .error ⟨"", caps, entities⟩
      else .ok ⟨"", caps, entities⟩
    | none => .ok ⟨"", caps, entities⟩

/-- The catalog and state of the C6 failing input: one catalog key k with
no category, present with a truthy value in the reported state, and no
existing entity for it. -/
def catalogC6 : List (String × List ElectroluxDevice) :=
  [("k", [⟨none, [("type", .vStr "boolean"), ("access", .vStr "read")]⟩])]

def stateC6 : List (String × PVal) :=
  [("properties", .vDict [("reported", .vDict [("k", .vNum 1)])])]

/-- C6: the discovery path is broken.  The local variable capability is
only assigned inside the found branch (api.py lines 280-282), so for a
newly discovered key the not-found branch calls get_entity with the stale
value, here the initial empty string, and the indexing
self.data.capabilities[""] raises KeyError: no entity for the discovered
capability k is ever built, although its presence condition holds. -/
theorem C6_stale_capability_bug :
    update_missing_entities true catalogC6 stateC6 [] [] =
      Except.error ⟨"", [], []⟩ ∧
    condCore [("k", PVal.vNum 1)] none "k" = Except.ok true :=
  ⟨rfl, rfl⟩

lemma dget_dinsert_self {α : Type} (d : List (String × α)) (k : String)
    (v : α) : dget (dinsert d k v) k = some v := by
  induction d with
  | nil => simp [dinsert, dget]
  | cons p rest ih =>
    obtain ⟨k₀, v₀⟩ := p
    by_cases h : k₀ = k
    · subst h; simp [dinsert, dget]
    · simp [dinsert, dget, h, ih]

lemma dget_dinsert_ne {α : Type} (d : List (String × α)) (k k₁ : String)
    (v : α) (h : k₁ ≠ k) : dget (dinsert d k v) k₁ = dget d k₁ := by
  induction d with
  | nil =>
    have hne : ¬ k = k₁ := fun hh => h hh.symm
    simp [dinsert, dget, hne]
  | cons p rest ih =>
    obtain ⟨k₀, v₀⟩ := p
    by_cases h₀ : k₀ = k
    · subst h₀
      have hne : ¬ k₀ = k₁ := fun hh => h hh.symm
      simp [dinsert, dget, hne]
    · simp [dinsert, dget, h₀, ih]

lemma dget_eq_none_of_not_mem {α : Type} (d : List (String × α))
    (k : String) (h : k ∉ dkeys d) : dget d k = none := by
  induction d with
  | nil => simp [dget]
  | cons p rest ih =>
    obtain ⟨k₀, v₀⟩ := p
    simp only [dkeys, List.map_cons, List.mem_cons] at h
    push_neg at h
    have hne : ¬ k₀ = k := fun hh => h.1 hh.symm
    simp only [dget, if_neg hne]
    exact ih h.2

lemma dget_dupdate_of_none {α : Type} (e : List (String × α)) :
    ∀ (d : List (String × α)) (k : String), dget e k = none →
    dget (dupdate d e) k = dget d k := by
  induction e with
  | nil => intro d k _; simp [dupdate]
  | cons p rest ih =>
    intro d k h
    obtain ⟨k₀, v₀⟩ := p
    simp only [dget] at h
    by_cases h₀ : k₀ = k
    · simp [h₀] at h
    · simp only [if_neg h₀] at h
      simp only [dupdate]
      rw [ih _ k h, dget_dinsert_ne _ _ _ _ (fun hh => h₀ hh.symm)]

lemma dget_dupdate_of_some {α : Type} (e : List (String × α)) :
    ∀ (d : List (String × α)) (k : String) (v : α), (dkeys e).Nodup →
    dget e k = some v → dget (dupdate d e) k = some v := by
  induction e with
  | nil => intro d k v _ h; simp [dget] at h
  | cons p rest ih =>
    intro d k v hnd h
    obtain ⟨k₀, v₀⟩ := p
    simp only [dkeys, List.map_cons, List.nodup_cons] at hnd
    simp only [dget] at h
    by_cases h₀ : k₀ = k
    · subst h₀
      simp only [eq_self_iff_true, if_true, Option.some.injEq] at h
      subst h
      have hnone : dget rest k₀ = none :=
        dget_eq_none_of_not_mem rest k₀ hnd.1
      simp only [dupdate]
      rw [dget_dupdate_of_none rest _ k₀ hnone, dget_dinsert_self]
    · simp only [if_neg h₀] at h
      simp only [dupdate]
      exact ih _ k v hnd.2 h

/-- The owned state of Appliance as far as update_reported_data touches
it: self.state, self.data.capabilities and self.entities. -/
structure URDState where
  state : List (String × PVal)
  caps : List (String × List (String × PVal))
  entities : List EntityRec

/-- The try block of Appliance.update_reported_data (api.py lines
520-528): fetch properties.reported (raising when either level is missing
or not a dictionary), merge reported_data into it in place, re-scan for
missing entities, then push the merged state into every entity
(ElectroluxEntity.update, entity.py lines 140-141).  An error carries the
state at the raise: the in-place merge and partial entity appends
survive. -/
def update_reported_data_body (st : URDState) (own : Bool)
    (catalog : List (String × List ElectroluxDevice))
    (reported_data : List (String × PVal)) : Except URDState URDState :=
  match dget st.state "properties" with
  | some (.vDict pd) =>
    match dget pd "reported" with
    | some (.vDict rd) =>
      let state₁ := dinsert st.state "properties"
        (.vDict (dinsert pd "reported" (.vDict (dupdate rd reported_data))))
      match update_missing_entities own catalog state₁ st.caps st.entities with
      | .ok u => .ok ⟨state₁, u.caps,
          u.entities.map (fun e =>
            ⟨e.entity_attr, e.entity_source, e.entity_type, some state₁⟩)⟩
      | .error u => .error ⟨state₁, u.caps, u.entities⟩
    | _ => .error st
  | _ => .error st

/-- Appliance.update_reported_data (api.py lines 517-535): the whole body
runs under one broad except Exception handler that only logs, so an error
outcome is returned exactly like a normal one. -/
def update_reported_data (st : URDState) (own : Bool)
    (catalog : List (String × List ElectroluxDevice))
    (reported_data : List (String × PVal)) : URDState :=
  match update_reported_data_body st own catalog reported_data with
  | .ok r => r
  | .error p => p

/-- C7: under a well-formed stored state, the merge is a plain dictionary
update: the new stored reported state is dupdate rd reported_data written
back in place, where every key of reported_data takes its incoming value
and every other key keeps its stored value. -/
theorem C7_plain_merge (st : URDState) (own : Bool)
    (catalog : List (String × List ElectroluxDevice))
    (reported_data pd rd : List (String × PVal))
    (hp : dget st.state "properties" = some (.vDict pd))
    (hr : dget pd "reported" = some (.vDict rd))
    (hnd : (dkeys reported_data).Nodup) :
    (update_reported_data st own catalog reported_data).state =
      dinsert st.state "properties"
        (.vDict (dinsert pd "reported" (.vDict (dupdate rd reported_data)))) ∧
    (∀ k v, dget reported_data k = some v →
      dget (dupdate rd reported_data) k = some v) ∧
    (∀ k, dget reported_data k = none →
      dget (dupdate rd reported_data) k = dget rd k) := by
  refine ⟨?_, ?_, ?_⟩
  · unfold update_reported_data update_reported_data_body
    simp only [hp, hr]
    cases hu : update_missing_entities own catalog
        (dinsert st.state "properties" (.vDict (dinsert pd "reported"
          (.vDict (dupdate rd reported_data))))) st.caps st.entities with
    | ok u => simp
    | error u => simp
  · intro k v h
    exact dget_dupdate_of_some reported_data rd k v hnd h
  · intro k h
    exact dget_dupdate_of_none reported_data rd k h

def rdBaseC7 : List (String × PVal) := [("a", .vNum 1), ("b", .vNum 2)]

def stC7 : URDState :=
  ⟨[("properties", .vDict [("reported", .vDict rdBaseC7)])], [], []⟩

def incomingC7 : List (String × PVal) := [("b", .vNum 5), ("c", .vNum 7)]

theorem C7_witness :
    (update_reported_data stC7 false [] incomingC7).state =
      dinsert stC7.state "properties"
        (.vDict (dinsert [("reported", .vDict rdBaseC7)] "reported"
          (.vDict (dupdate rdBaseC7 incomingC7)))) ∧
    dget (dupdate rdBaseC7 incomingC7) "b" = some (.vNum 5) ∧
    dget (dupdate rdBaseC7 incomingC7) "a" = dget rdBaseC7 "a" :=
  ⟨(C7_plain_merge stC7 false [] incomingC7 _ _ rfl rfl (by decide)).1,
   (C7_plain_merge stC7 false [] incomingC7 _ _ rfl rfl (by decide)).2.1
     "b" _ rfl,
   (C7_plain_merge stC7 false [] incomingC7 _ _ rfl rfl (by decide)).2.2
     "a" rfl⟩

/-- C8: update_reported_data never propagates an exception: for every
input dictionary and stored state the call returns a state, taken either
from the normal completion of the body or from the handler that absorbs
the error outcome; the second conjunct shows a state in which the body
does raise (a non-dictionary properties entry) and the call still returns
normally. -/
theorem C8_no_exception_escapes :
    (∀ st own catalog reported_data, ∃ r : URDState,
      update_reported_data st own catalog reported_data = r ∧
      (update_reported_data_body st own catalog reported_data = .ok r ∨
       update_reported_data_body st own catalog reported_data = .error r))
  ∧ update_reported_data_body ⟨[("properties", .vStr "broken")], [], []⟩
      true [] [] = .error ⟨[("properties", .vStr "broken")], [], []⟩
  ∧ update_reported_data ⟨[("properties", .vStr "broken")], [], []⟩
      true [] [] = ⟨[("properties", .vStr "broken")], [], []⟩ := by
  refine ⟨?_, rfl, rfl⟩
  intro st own catalog reported_data
  cases h : update_reported_data_body st own catalog reported_data with
  | ok r => exact ⟨r, by simp [update_reported_data, h], Or.inl rfl⟩
  | error p => exact ⟨p, by simp [update_reported_data, h], Or.inr rfl⟩

